import Mathlib

/-!
Verification development for the bank-statement document parser.

The Lean definitions below are a shallow embedding of the Python sources:
`analysis.py` (date parsing, DataFrame preparation, monthly breakdown and
median summary), `gpt_service.py` (chunked, retrying extraction and
categorization), `progress_manager.py` (progress event streaming) and
`bank_statement_service.py` (the stage pipeline that publishes progress).
Monetary values are modelled as rationals, Python `datetime` values as a
year/month/day record, and the external oracle (the GPT API) as an explicit
sequence of responses fed to the retry loops.
-/

/-! ## Character / string helpers (Python `str.split` and digit parsing) -/

/-- Splitting a character list on a separator, as Python `str.split(sep)` does:
`"a-b"` gives `["a","b"]`, a leading/trailing separator yields an empty part,
and the empty string yields `[""]`. -/
def splitCharGo (sep : Char) : List Char → List Char → List (List Char)
  | [], acc => [acc.reverse]
  | c :: cs, acc =>
      if c = sep then acc.reverse :: splitCharGo sep cs []
      else splitCharGo sep cs (c :: acc)

def splitChar (sep : Char) (cs : List Char) : List (List Char) :=
  splitCharGo sep cs []

def isDigits (cs : List Char) : Bool := cs.all Char.isDigit

/-- Decimal value of a digit list (the value `int()` would give). -/
def decToNat (cs : List Char) : ℕ :=
  cs.foldl (fun n c => 10 * n + (c.toNat - 48)) 0

/-! ## Dates (Python `datetime`) -/

/-- A Python `datetime.date`/`datetime` value, reduced to its date fields. -/
structure PyDate where
  year : ℕ
  month : ℕ
  day : ℕ
deriving DecidableEq

def isLeap (y : ℕ) : Bool :=
  y % 4 == 0 && (!(y % 100 == 0) || y % 400 == 0)

def daysInMonth (y m : ℕ) : ℕ :=
  if m = 2 then (if isLeap y then 29 else 28)
  else if m = 4 ∨ m = 6 ∨ m = 9 ∨ m = 11 then 30
  else 31

/-- The validity check the `datetime` constructor (and `.replace`) performs:
years 1..9999, months 1..12, real day-of-month. -/
def validDate (y m d : ℕ) : Bool :=
  1 ≤ y && y ≤ 9999 && 1 ≤ m && m ≤ 12 && 1 ≤ d && d ≤ daysInMonth y m

/-- `datetime.strptime(s, "%Y-%m-%d")`: CPython's `%Y` matches exactly four
digits, `%m`/`%d` one or two digits; the constructed date must be valid. -/
def strptime_Ymd (s : String) : Option PyDate :=
  match splitChar '-' s.data with
  | [y, m, d] =>
      if isDigits y && y.length = 4 && isDigits m && 1 ≤ m.length && m.length ≤ 2
          && isDigits d && 1 ≤ d.length && d.length ≤ 2 then
        let Y := decToNat y; let M := decToNat m; let D := decToNat d
        if validDate Y M D then some ⟨Y, M, D⟩ else none
      else none
  | _ => none

/-- `datetime.strptime(s, "%d-%m-%Y")`. -/
def strptime_dmY (s : String) : Option PyDate :=
  match splitChar '-' s.data with
  | [d, m, y] =>
      if isDigits y && y.length = 4 && isDigits m && 1 ≤ m.length && m.length ≤ 2
          && isDigits d && 1 ≤ d.length && d.length ≤ 2 then
        let Y := decToNat y; let M := decToNat m; let D := decToNat d
        if validDate Y M D then some ⟨Y, M, D⟩ else none
      else none
  | _ => none

/-- `datetime.strptime(s, "%y-%m-%d")`: `%y` matches exactly two digits and is
windowed by CPython as 00-68 → 2000-2068 and 69-99 → 1969-1999. -/
def strptime_ymd2 (s : String) : Option PyDate :=
  match splitChar '-' s.data with
  | [y, m, d] =>
      if isDigits y && y.length = 2 && isDigits m && 1 ≤ m.length && m.length ≤ 2
          && isDigits d && 1 ≤ d.length && d.length ≤ 2 then
        let yy := decToNat y
        let Y := if yy ≤ 68 then 2000 + yy else 1900 + yy
        let M := decToNat m; let D := decToNat d
        if validDate Y M D then some ⟨Y, M, D⟩ else none
      else none
  | _ => none

/-- `analysis.parse_date`: tries `%Y-%m-%d`, then `%d-%m-%Y`, then `%y-%m-%d`;
in the two-digit-year branch the source then runs
`dt.replace(year=dt.year + 2000)` on the already-windowed `strptime` year. -/
def parse_date (s : String) : Option PyDate :=
  match strptime_Ymd s with
  | some dt => some dt
  | none =>
      match strptime_dmY s with
      | some dt => some dt
      | none =>
          match strptime_ymd2 s with
          | some dt =>
              if validDate (dt.year + 2000) dt.month dt.day then
                some ⟨dt.year + 2000, dt.month, dt.day⟩
              else none
          | none => none

/-- A deliberately partial model of the
`pd.to_datetime(df['date'], format='mixed', dayfirst=True)` call in
`prepare_transaction_dataframe`.  Mixed-format parsing infers a format per
element and accepts far more shapes than can be modelled here (slashes,
month names, two-digit-year and swapped-component readings, ...), so this
function only commits to the unambiguous dash-delimited numeric dates — the
`dayfirst=True` `DD-MM-YYYY` reading first, then `YYYY-MM-DD` — and returns
`none` elsewhere.  A `none` therefore does not in general mean the program's
`to_datetime` raises; the theorems about unparseable dates quantify over the
parser, and this model is instantiated at `none` only for the digit-free,
month-name-free string `"garbage"`, which pandas provably rejects. -/
def pd_to_datetime (s : String) : Option PyDate :=
  match strptime_dmY s with
  | some dt => some dt
  | none => strptime_Ymd s

/-! ## Sorting helper (pandas `groupby`/`sorted` order) -/

/-- Insertion into a list sorted by the boolean order `le`. -/
def insertBy (le : α → α → Bool) (a : α) : List α → List α
  | [] => [a]
  | b :: bs => if le a b then a :: b :: bs else b :: insertBy le a bs

/-- Insertion sort by the boolean order `le` (models `sorted` / the sorted
group keys produced by pandas `groupby`). -/
def sortBy (le : α → α → Bool) : List α → List α
  | [] => []
  | a :: as => insertBy le a (sortBy le as)

/-- Code-point lexicographic comparison of strings, as Python `<=` on `str`
(the order `sorted` and pandas group keys use). -/
def lexLe : List Char → List Char → Bool
  | [], _ => true
  | _ :: _, [] => false
  | a :: as, b :: bs =>
      if a.toNat < b.toNat then true
      else if b.toNat < a.toNat then false
      else lexLe as bs

def strLeB (a b : String) : Bool := lexLe a.data b.data

/-- Chronological order on `(year, month)` pairs (pandas `Period` order). -/
def monthLeB (a b : ℕ × ℕ) : Bool := a.1 < b.1 || (a.1 == b.1 && a.2 ≤ b.2)

/-! ## `prepare_transaction_dataframe` -/

/-- A raw (categorized) transaction record, as produced by the oracle:
the dict `{date, description, debit, credit, balance, category}`. -/
structure RawTxn where
  date : String
  description : String
  debit : ℚ
  credit : ℚ
  balance : ℚ
  category : String
deriving DecidableEq, Inhabited

/-- A prepared DataFrame row: parsed month period, lower-cased category type,
optional subcategory (`NaN`, i.e. `none`, when the category has no `'.'`),
and numeric debit/credit. -/
structure Row where
  month : ℕ × ℕ
  category_type : String
  sub_category : Option String
  debit : ℚ
  credit : ℚ
deriving DecidableEq, Inhabited

/-- `df['category'].str.split('.').str[0].str.lower()` and `....str[1]`. -/
def splitCategory (c : String) : String × Option String :=
  let parts := splitChar '.' c.data
  (String.mk ((parts.headD []).map Char.toLower), (parts.get? 1).map String.mk)

/-- `analysis.prepare_transaction_dataframe` on a transaction list,
parameterized by the behavior `to_datetime` of pandas' mixed-format date
parser (`none` models a parse failure, i.e. `pd.to_datetime` raising on that
element): an empty input yields the empty frame; if `to_datetime` fails on
any row the whole `try` block raises, the exception is caught and the empty
frame is returned; otherwise every row is kept with its parsed month and
split category.  (`pd.to_numeric(..., errors='coerce')` is the identity on
our already-numeric debit/credit model.) -/
def prepare_transaction_dataframe (to_datetime : String → Option PyDate)
    (ts : List RawTxn) : List Row :=
  if ts.isEmpty then []
  else if ts.all (fun t => (to_datetime t.date).isSome) then
    ts.map (fun t =>
      let d := (to_datetime t.date).getD ⟨1, 1, 1⟩
      let sp := splitCategory t.category
      { month := (d.year, d.month), category_type := sp.1, sub_category := sp.2,
        debit := t.debit, credit := t.credit })
  else []

/-! ## `calculate_monthly_breakdown` -/

/-- Rounding a monetary value to 2 decimal places (`round(x, 2)`). -/
def round2 (x : ℚ) : ℚ := (round (100 * x) : ℤ) / 100

/-- `str(month)` for a pandas month `Period`. -/
def monthStr (m : ℕ × ℕ) : String :=
  toString m.1 ++ "-" ++ (if m.2 < 10 then "0" else "") ++ toString m.2

/-- The rows of a month with the given category type that survive the
`groupby(['month','category_type','sub_category'])`: pandas drops rows whose
group key contains `NaN`, so only rows with a subcategory are kept. -/
def rowsFor (rows : List Row) (m : ℕ × ℕ) (ct : String) : List Row :=
  rows.filter (fun r => r.month == m && r.category_type == ct && r.sub_category.isSome)

/-- The aggregated amount of one `(month, category_type, sub_category)` group. -/
def groupAmount (rows : List Row) (m : ℕ × ℕ) (ct : String) (sc : String)
    (f : Row → ℚ) : ℚ :=
  (((rowsFor rows m ct).filter (fun r => r.sub_category == some sc)).map f).sum

/-- The distinct subcategories of a month/category-type, in sorted order (the
group keys pandas produces, re-sorted by the `sorted(..., key=...)` call). -/
def monthSubcats (rows : List Row) (m : ℕ × ℕ) (ct : String) : List String :=
  sortBy strLeB (((rowsFor rows m ct).filterMap Row.sub_category).dedup)

/-- One breakdown list (`income_breakdown` / `expense_breakdown`): one
`{sub_category: rounded amount}` entry per group with a strictly positive
aggregated amount, sorted by subcategory. -/
def breakdownFor (rows : List Row) (m : ℕ × ℕ) (ct : String) (f : Row → ℚ) :
    List (String × ℚ) :=
  (monthSubcats rows m ct).filterMap (fun sc =>
    let v := groupAmount rows m ct sc f
    if 0 < v then some (sc, round2 v) else none)

/-- One entry of the monthly breakdown (the `month_entry` dict). -/
structure MonthlySummary where
  month : String
  income : ℚ
  expense : ℚ
  savings : ℚ
  income_breakdown : List (String × ℚ)
  expense_breakdown : List (String × ℚ)
deriving DecidableEq, Inhabited

def monthEntry (rows : List Row) (m : ℕ × ℕ) : MonthlySummary :=
  let inc := round2 (((rowsFor rows m "income").map Row.credit).sum)
  let exp := round2 (((rowsFor rows m "expense").map Row.debit).sum)
  { month := monthStr m
    income := inc
    expense := exp
    savings := round2 (inc - exp)
    income_breakdown := breakdownFor rows m "income" Row.credit
    expense_breakdown := breakdownFor rows m "expense" Row.debit }

/-- The distinct months of the frame, ascending (`sorted(df['month'].unique())`). -/
def monthsOf (rows : List Row) : List (ℕ × ℕ) :=
  sortBy monthLeB ((rows.map Row.month).dedup)

/-- `analysis.calculate_monthly_breakdown`. -/
def calculate_monthly_breakdown (rows : List Row) : List MonthlySummary :=
  (monthsOf rows).map (monthEntry rows)

/-- Sum of the amounts of a breakdown list (`sum(breakdown.values())`). -/
def breakdownTotal (bs : List (String × ℚ)) : ℚ := (bs.map Prod.snd).sum

/-! ## `calculate_median_summary` and `generate_transaction_breakdown` -/

def qLeB (a b : ℚ) : Bool := a ≤ b

/-- The statistical median pandas `Series.median()` computes: middle element
for odd length, mean of the two middle elements for even length. -/
def medianQ (l : List ℚ) : ℚ :=
  let s := sortBy qLeB l
  if s.length % 2 = 1 then s.getD (s.length / 2) 0
  else (s.getD (s.length / 2 - 1) 0 + s.getD (s.length / 2) 0) / 2

/-- The `median_summary` dict. -/
structure MedianSummary where
  median_income : ℚ
  median_expense : ℚ
  median_savings : ℚ
  median_income_breakdown : List (String × ℚ)
  median_expense_breakdown : List (String × ℚ)
deriving DecidableEq, Inhabited

/-- Per-category medians over the flattened breakdown rows produced by
`flatten_breakdown` (a category absent from a month contributes no row, so
the median is over the months where it appears). -/
def medianCats (pairs : List (String × ℚ)) : List (String × ℚ) :=
  (sortBy strLeB ((pairs.map Prod.fst).dedup)).map (fun c =>
    (c, round2 (medianQ ((pairs.filter (fun p => p.1 == c)).map Prod.snd))))

/-- `analysis.calculate_median_summary` (the later definition in the file,
which shadows the earlier one). On an empty breakdown list
`pd.DataFrame([])['income']` raises `KeyError`, the bare `except` catches it
and the function returns the empty dict — modelled as `none`. -/
def calculate_median_summary (bd : List MonthlySummary) : Option MedianSummary :=
  if bd.isEmpty then none
  else some
    { median_income := round2 (medianQ (bd.map MonthlySummary.income))
      median_expense := round2 (medianQ (bd.map MonthlySummary.expense))
      median_savings := round2 (medianQ (bd.map MonthlySummary.savings))
      median_income_breakdown :=
        medianCats (bd.flatMap MonthlySummary.income_breakdown)
      median_expense_breakdown :=
        medianCats (bd.flatMap MonthlySummary.expense_breakdown) }

/-- `analysis.generate_transaction_breakdown`: prepare the frame, compute the
monthly breakdown and the median summary; its `try/except` means it always
returns a pair, never raising. -/
def generate_transaction_breakdown (to_datetime : String → Option PyDate)
    (ts : List RawTxn) : List MonthlySummary × Option MedianSummary :=
  let bd := calculate_monthly_breakdown (prepare_transaction_dataframe to_datetime ts)
  (bd, calculate_median_summary bd)

/-! ## Chunking (`for i in range(0, len(items), chunk_size)`) -/

/-- Fuel-driven worker for `chunksOf`; the fuel is an upper bound on the list
length, so the `0, _ :: _` case is never reached from `chunksOf`. -/
def chunksGo (k : ℕ) : ℕ → List α → List (List α)
  | _, [] => []
  | 0, _ :: _ => []
  | fuel + 1, a :: as => (a :: as.take (k - 1)) :: chunksGo k fuel (as.drop (k - 1))

/-- The consecutive slices `items[i:i+k]` for `i in range(0, len(items), k)`,
as both `extract_transactions` (k = 2 tables) and `categorize_transactions`
(k = 40 transactions) build them. -/
def chunksOf (k : ℕ) (items : List α) : List (List α) :=
  chunksGo k items.length items

/-- `list(enumerate(l, start))`: each element paired with its index. -/
def enumFrom (s : ℕ) : List α → List (ℕ × α)
  | [] => []
  | a :: as => (s, a) :: enumFrom (s + 1) as

/-- Reading slot `i` out of a completion list: the result that the
`asyncio.gather` machinery stored for the task submitted at position `i`. -/
def slotLookup (i : ℕ) : List (ℕ × β) → Option β
  | [] => none
  | (j, r) :: rest => if j = i then some r else slotLookup i rest

/-- The merge step after `asyncio.gather`: results are placed in slots by
submission index regardless of completion order, then concatenated with
`final.extend(result)` in slot order. -/
def gather_merge (n : ℕ) (completions : List (ℕ × List β)) : List β :=
  ((List.range n).map (fun i => (slotLookup i completions).getD [])).flatten

/-! ## Per-chunk retry loops (`gpt_service.py`) -/

/-- The outcome of one per-chunk retry loop: the transactions returned for the
chunk, the number of GPT calls made, and whether the fallback branch of the
`else` at loop exhaustion was taken. -/
structure ChunkOutcome (α : Type) where
  result : List α
  attempts : ℕ
  fellBack : Bool
deriving DecidableEq

/-- A raw response item: whether it has every required field, and its content. -/
structure RawItem where
  complete : Bool
  tx : RawTxn
deriving DecidableEq

/-- One attempt's outcome at the `extract` oracle: the API call or
`json.loads` raised, the JSON had neither a `transactions` list nor a
top-level list, or a list of transaction-shaped items was produced. -/
inductive ExtractResp
  | apiError
  | invalidShape
  | txList (ts : List RawItem)
deriving DecidableEq

/-- The validation `process_chunk_async` applies to a parsed response:
every item must have `date`, `description`, `debit`, `credit`, `balance`. -/
def extractValid : ExtractResp → Option (List RawTxn)
  | .txList ts => if ts.all RawItem.complete then some (ts.map RawItem.tx) else none
  | _ => none

/-- `while retry_count < max_retries` for extraction; the fallback at
exhaustion is `return []`. `used` is the number of calls already made. -/
def pcaLoop (resps : ℕ → ExtractResp) : ℕ → ℕ → ChunkOutcome RawTxn
  | 0, used => ⟨[], used, true⟩
  | fuel + 1, used =>
      match extractValid (resps used) with
      | some ts => ⟨ts, used + 1, false⟩
      | none => pcaLoop resps fuel (used + 1)

/-- `gpt_service.process_chunk_async` with its oracle responses made explicit:
`resps n` is what the `n`-th API call for this chunk produces (the chunk text
itself is the same on every attempt — the prompt is rebuilt from the same
`chunk_tables`). -/
def process_chunk_async (resps : ℕ → ExtractResp) (max_retries : ℕ) :
    ChunkOutcome RawTxn :=
  pcaLoop resps max_retries 0

/-- One attempt's outcome at the `categorize` oracle: exception, a JSON value
that is not a dict with a `transactions` key, or a list of items. -/
inductive CatResp
  | apiError
  | invalidShape
  | txns (ts : List RawItem)
deriving DecidableEq

/-- The category-string validation of `process_categorization_chunk_async`:
`'.' in category`, then `category.split('.')` must unpack into exactly two
parts (three or more raise `ValueError`), and the type must be one of
`income`, `expense`, `transfer`. -/
def categoryOk (c : String) : Bool :=
  match splitChar '.' c.data with
  | [t, _] => t == "income".data || t == "expense".data || t == "transfer".data
  | _ => false

/-- Item validation for categorization: all six required fields present and
the category string well-formed. -/
def catItemOk (it : RawItem) : Bool := it.complete && categoryOk it.tx.category

def catValid : CatResp → Option (List RawTxn)
  | .txns ts => if ts.all catItemOk then some (ts.map RawItem.tx) else none
  | _ => none

/-- `transaction['category'] = 'expense.others'`, the fallback default. -/
def setDefaultCategory (t : RawTxn) : RawTxn := { t with category := "expense.others" }

/-- `while retry_count < max_retries` for categorization; the fallback at
exhaustion returns the original chunk with the default category applied. -/
def pccLoop (resps : ℕ → CatResp) (chunk : List RawTxn) : ℕ → ℕ → ChunkOutcome RawTxn
  | 0, used => ⟨chunk.map setDefaultCategory, used, true⟩
  | fuel + 1, used =>
      match catValid (resps used) with
      | some ts => ⟨ts, used + 1, false⟩
      | none => pccLoop resps chunk fuel (used + 1)

/-- `gpt_service.process_categorization_chunk_async` with explicit oracle
responses; the same `chunk` is used for the prompt of every attempt. -/
def process_categorization_chunk_async (resps : ℕ → CatResp) (chunk : List RawTxn)
    (max_retries : ℕ) : ChunkOutcome RawTxn :=
  pccLoop resps chunk max_retries 0

/-- `gpt_service.categorize_transactions`: chunk into slices of 40, run every
chunk through `process_categorization_chunk_async` (`max_retries = 3`), merge
the per-chunk results in chunk order, and raise (`Except.error`) exactly when
the merged list is empty. `resps i n` is the `n`-th oracle response for chunk
`i`. The per-chunk coroutine never raises (every exception is caught inside
its retry loop), so the `isinstance(result, Exception)` arm of the merge is
not reachable in this model. -/
def categorize_transactions (resps : ℕ → ℕ → CatResp) (transactions : List RawTxn) :
    Except String (List RawTxn) :=
  let chunks := chunksOf 40 transactions
  let merged := ((List.range chunks.length).map (fun i =>
    (process_categorization_chunk_async (resps i) (chunks.getD i []) 3).result)).flatten
  if merged.isEmpty then
    .error "Failed to categorize transactions: No transactions were successfully categorized"
  else .ok merged

/-- `gpt_service.extract_transactions`: the table keys (already sorted by
table number by the `sorted(tables.keys(), key=...)` step) are chunked two at
a time, every chunk runs through `process_chunk_async` (`max_retries = 3`) —
the chunk's tables only shape the prompt, so each chunk's transactions come
from its oracle responses `resps i` — the per-chunk results are merged in
chunk order by the `asyncio.gather` loop, and the function raises
(`Except.error`) exactly when the merged list is empty.  As in the
categorization run, the per-chunk coroutine never raises (its retry loop
catches every exception and falls back to `return []`), so the
`isinstance(result, Exception)` arm of the merge is unreachable here. -/
def extract_transactions (resps : ℕ → ℕ → ExtractResp) (table_keys : List String) :
    Except String (List RawTxn) :=
  let chunks := chunksOf 2 table_keys
  let merged := ((List.range chunks.length).map (fun i =>
    (process_chunk_async (resps i) 3).result)).flatten
  if merged.isEmpty then
    .error "Failed to extract transactions: No transactions were successfully extracted"
  else .ok merged



/-! ## Progress events (`progress_manager.py`, `bank_statement_service.py`) -/

/-- One payload put on a task's listener queue by `update_progress`. -/
structure ProgressEvent where
  progress : ℕ
  message : String
deriving DecidableEq

/-- How far `bank_statement_service.process_bank_statement` gets: it either
runs to completion or one of its four awaited stages raises, and the function
has no exception handler, so publishing stops at that point. -/
inductive PipelineOutcome
  | success
  | textractFailed
  | analysisFailed
  | extractionFailed
  | categorizationFailed
deriving DecidableEq

/-- The progress events `process_bank_statement` publishes for a task, per
outcome. On success the terminal event carries `progress=100`; when a stage
raises, the exception propagates and no further event — in particular no
terminal `progress=100` event — is ever published for the task. -/
def process_bank_statement_events : PipelineOutcome → List ProgressEvent
  | .textractFailed => [⟨10, "Started Textract processing..."⟩]
  | .analysisFailed =>
      [⟨10, "Started Textract processing..."⟩, ⟨40, "Completed Textract."⟩]
  | .extractionFailed =>
      [⟨10, "Started Textract processing..."⟩, ⟨40, "Completed Textract."⟩,
       ⟨60, "Analyzed table structure"⟩]
  | .categorizationFailed =>
      [⟨10, "Started Textract processing..."⟩, ⟨40, "Completed Textract."⟩,
       ⟨60, "Analyzed table structure"⟩, ⟨80, "Extracted transactions"⟩]
  | .success =>
      [⟨10, "Started Textract processing..."⟩, ⟨40, "Completed Textract."⟩,
       ⟨60, "Analyzed table structure"⟩, ⟨80, "Extracted transactions"⟩,
       ⟨90, "Categorization completed"⟩, ⟨100, "Completed all processing"⟩]

/-- Prefix of a list up to and including the first element satisfying `p`
(the whole list if none does). -/
def takeUntilIncl (p : α → Bool) : List α → List α
  | [] => []
  | a :: as => if p a then [a] else a :: takeUntilIncl p as

/-- What `listen` yields to a subscriber: either the SSE-framed error payload,
or the SSE framing of a queued progress payload. -/
inductive SSE
  | errorEvent (msg : String)
  | dataEvent (e : ProgressEvent)
deriving DecidableEq

/-- `progress_manager.listen`: with no queue for the task it yields a single
`Task not found` error event and returns.  Otherwise it consumes queued
events, yielding each, and breaks right after one with `progress >= 100`.
Given the full sequence the publisher will ever put on the queue, the yielded
events are the prefix through the first terminal event; the `Bool` records
whether the generator ever terminates — if no published event reaches 100 the
`await queue.get()` blocks forever once the queue is drained. -/
def listen (hasChannel : Bool) (published : List ProgressEvent) : List SSE × Bool :=
  if hasChannel then
    ((takeUntilIncl (fun e => 100 ≤ e.progress) published).map SSE.dataEvent,
      published.any (fun e => 100 ≤ e.progress))
  else ([SSE.errorEvent "Task not found"], true)

/-! ## Concrete sample inputs used in the theorems below -/

def sampleTxn : RawTxn :=
  { date := "2024-01-05", description := "coffee", debit := 100, credit := 0,
    balance := 900, category := "expense.food" }

def goodTxn : RawTxn :=
  { date := "2024-01-05", description := "salary", debit := 0, credit := 50000,
    balance := 50000, category := "income.salary" }

def badDateTxn : RawTxn :=
  { date := "garbage", description := "rent", debit := 20000, credit := 0,
    balance := 30000, category := "expense.rent" }

/-- Five income rows of one month, each with credit `0.004`: every per-group
rounded amount is `0.00` while the rounded monthly income is `0.02`. -/
def smallCreditRows : List Row :=
  [{ month := (2024, 1), category_type := "income", sub_category := some "a",
     debit := 0, credit := 1/250 },
   { month := (2024, 1), category_type := "income", sub_category := some "b",
     debit := 0, credit := 1/250 },
   { month := (2024, 1), category_type := "income", sub_category := some "c",
     debit := 0, credit := 1/250 },
   { month := (2024, 1), category_type := "income", sub_category := some "d",
     debit := 0, credit := 1/250 },
   { month := (2024, 1), category_type := "income", sub_category := some "e",
     debit := 0, credit := 1/250 }]

/-- A transfer-typed row (credit and debit both present, to make the claim
about non-contribution meaningful). -/
def transferRow : Row :=
  { month := (2024, 1), category_type := "transfer", sub_category := some "self",
    debit := 7000, credit := 7000 }

def januaryRows : List Row :=
  [{ month := (2024, 1), category_type := "income", sub_category := some "salary",
     debit := 0, credit := 50000 },
   { month := (2024, 1), category_type := "expense", sub_category := some "food",
     debit := 8000, credit := 0 }]

/-! ## General lemmas -/

theorem insertBy_perm (le : α → α → Bool) (a : α) (l : List α) :
    (insertBy le a l).Perm (a :: l) := by
  induction l with
  | nil => exact List.Perm.refl _
  | cons b bs ih =>
      by_cases h : le a b = true
      · simp [insertBy, h]
      · simp only [insertBy, h, if_false, Bool.false_eq_true]
        exact (List.Perm.cons b ih).trans (List.Perm.swap a b bs)

theorem sortBy_perm (le : α → α → Bool) (l : List α) :
    (sortBy le l).Perm l := by
  induction l with
  | nil => exact List.Perm.refl _
  | cons a as ih =>
      exact (insertBy_perm le a (sortBy le as)).trans (List.Perm.cons a ih)

example : strptime_Ymd "2024-01-05" = some ⟨2024, 1, 5⟩ := by decide
example : strptime_Ymd "25-01-05" = none := by decide
example : strptime_dmY "25-01-05" = none := by decide
example : strptime_ymd2 "25-01-05" = some ⟨2025, 1, 5⟩ := by decide
example : parse_date "2024-02-29" = some ⟨2024, 2, 29⟩ := by decide
example : parse_date "2023-02-29" = none := by decide
example : parse_date "15-01-2024" = some ⟨2024, 1, 15⟩ := by decide
example : parse_date "garbage" = none := by decide
example : pd_to_datetime "garbage" = none := by decide
example : pd_to_datetime "2024-01-05" = some ⟨2024, 1, 5⟩ := by decide
example : pd_to_datetime "15-01-2024" = some ⟨2024, 1, 15⟩ := by decide

/-! ## C7 — two-digit-year parsing -/

/-- C7: the claim states that a `YY-MM-DD` date string parses to year `20YY`
(e.g. `"25-01-05"` to 2025).  The code's own comment says `Assume 20xx for
year`, but `strptime` with `%y` already windows `25` to 2025 and the code then
adds another 2000, so `parse_date "25-01-05"` actually yields year 4025: the
claim describes the intent and the code diverges from it. -/
theorem c7_parse_date_two_digit_year :
    parse_date "25-01-05" = some ⟨4025, 1, 5⟩ ∧
    parse_date "25-01-05" ≠ some ⟨2025, 1, 5⟩ := by decide

/-! ## C2 — median summary of an empty breakdown -/

/-- C2 counterexample: on an empty monthly breakdown,
`calculate_median_summary` does not return the zeroed summary the claim
describes; the `KeyError` on the empty DataFrame is caught and the empty dict
(modelled `none`) is returned instead. -/
theorem c2_median_empty_counterexample :
    calculate_median_summary ([] : List MonthlySummary) ≠
      some { median_income := 0, median_expense := 0, median_savings := 0,
             median_income_breakdown := [], median_expense_breakdown := [] } :=
  fun h => Option.noConfusion h

/-- C2 amended: when the monthly breakdown input is empty (in particular for
an empty transaction list), `calculate_median_summary` returns the empty dict
`{}` (modelled `none`) — not the zero-filled summary — and never raises;
`generate_transaction_breakdown` on an empty transaction list returns
`{monthly_breakdown: [], median_summary: {}}`, whatever the date parser's
behavior (the empty path never consults it). -/
theorem c2_median_empty_behavior :
    calculate_median_summary ([] : List MonthlySummary) = none ∧
    ∀ to_datetime : String → Option PyDate,
      generate_transaction_breakdown to_datetime [] = ([], none) :=
  ⟨rfl, fun _ => rfl⟩

/-! ## C10 — subscribing to an unknown task -/

/-- C10: subscribing to the progress stream of a task id with no initialized
channel yields exactly one event, carrying the `Task not found` error, and
then terminates (it neither blocks nor raises), whatever would later be
published. -/
theorem c10_listen_unknown_task (published : List ProgressEvent) :
    listen false published = ([SSE.errorEvent "Task not found"], true) ∧
    (listen false published).1.length = 1 :=
  ⟨rfl, rfl⟩

/-! ## C8 — progress stream termination -/

/-- C8 counterexample: on the failure path (e.g. the Textract stage raising),
no event with `progress = 100` is ever published — `process_bank_statement`
has no exception handler — so the subscriber's stream never terminates,
contradicting the claim that the stream ends at `progress == 100` on both
success and failure paths. -/
theorem c8_failure_stream_counterexample :
    (listen true (process_bank_statement_events .textractFailed)).2 = false ∧
    (process_bank_statement_events .textractFailed).all
      (fun e => e.progress < 100) = true := by decide

/-- C8 amended: the delivered progress sequence is non-decreasing for every
outcome, and on the success path the stream delivers `10,40,60,80,90,100` and
terminates exactly once, immediately after the single `progress = 100` event;
but the stream terminates only for the success outcome — on every failure
path no terminal event is published and the subscriber blocks forever. -/
theorem c8_progress_stream_behavior :
    ∀ o : PipelineOutcome,
      List.Chain' (fun a b => a ≤ b)
        ((takeUntilIncl (fun e => 100 ≤ e.progress)
          (process_bank_statement_events o)).map ProgressEvent.progress) ∧
      ((listen true (process_bank_statement_events o)).2 = true ↔ o = .success) ∧
      (o = .success →
        (listen true (process_bank_statement_events o)).1 =
          (process_bank_statement_events .success).map SSE.dataEvent ∧
        (process_bank_statement_events o).map ProgressEvent.progress =
          [10, 40, 60, 80, 90, 100] ∧
        (process_bank_statement_events o).countP (fun e => 100 ≤ e.progress) = 1) := by
  intro o
  cases o with
  | success =>
      exact ⟨by simp [process_bank_statement_events, takeUntilIncl],
        by decide, fun _ => by refine ⟨?_, ?_, ?_⟩ <;> decide⟩
  | textractFailed =>
      exact ⟨by simp [process_bank_statement_events, takeUntilIncl],
        by decide, fun h => nomatch h⟩
  | analysisFailed =>
      exact ⟨by simp [process_bank_statement_events, takeUntilIncl],
        by decide, fun h => nomatch h⟩
  | extractionFailed =>
      exact ⟨by simp [process_bank_statement_events, takeUntilIncl],
        by decide, fun h => nomatch h⟩
  | categorizationFailed =>
      exact ⟨by simp [process_bank_statement_events, takeUntilIncl],
        by decide, fun h => nomatch h⟩

theorem c8_progress_stream_behavior_witness :
    (listen true (process_bank_statement_events .success)).2 = true ∧
    (process_bank_statement_events .success).countP (fun e => 100 ≤ e.progress) = 1 :=
  ⟨(c8_progress_stream_behavior .success).2.1.mpr rfl,
   ((c8_progress_stream_behavior .success).2.2 rfl).2.2⟩

/-! ## C6 — unparseable dates -/

/-- C6 counterexample: with one genuinely unparseable date (`"garbage"`,
which pandas' mixed-format parsing rejects: it contains no digit and no month
name for `dateutil` to anchor on) among the transactions, the claim says only
that row is excluded; in fact `pd.to_datetime` raises inside the `try`, the
handler returns an empty DataFrame, and the monthly breakdown is empty — the
well-formed transaction no longer contributes, as the same input without the
bad row shows. -/
theorem c6_unparseable_date_counterexample :
    calculate_monthly_breakdown
      (prepare_transaction_dataframe pd_to_datetime [goodTxn, badDateTxn]) = [] ∧
    calculate_monthly_breakdown
      (prepare_transaction_dataframe pd_to_datetime [goodTxn]) ≠ [] :=
  of_decide_eq_true (by with_unfolding_all rfl)

/-- C6 amended: whatever the per-element behavior of pandas' mixed-format
date parsing, a transaction whose date string it cannot parse causes the
whole DataFrame preparation to fail — every transaction (not just the bad
row) is dropped from aggregation and the monthly breakdown is empty; the run
is still not aborted: `generate_transaction_breakdown` returns `([], {})`
rather than raising. -/
theorem c6_unparseable_date_drops_all (to_datetime : String → Option PyDate)
    (ts : List RawTxn) (t : RawTxn)
    (hmem : t ∈ ts) (hbad : to_datetime t.date = none) :
    prepare_transaction_dataframe to_datetime ts = [] ∧
    calculate_monthly_breakdown (prepare_transaction_dataframe to_datetime ts) = [] ∧
    generate_transaction_breakdown to_datetime ts = ([], none) := by
  have hne : ts.isEmpty = false := by
    cases ts with
    | nil => cases hmem
    | cons a as => rfl
  have hall : ts.all (fun t => (to_datetime t.date).isSome) = false := by
    rw [List.all_eq_false]
    exact ⟨t, hmem, by simp [hbad]⟩
  have hprep : prepare_transaction_dataframe to_datetime ts = [] := by
    unfold prepare_transaction_dataframe
    rw [hne, hall]
    simp
  refine ⟨hprep, ?_, ?_⟩
  · rw [hprep]; rfl
  · unfold generate_transaction_breakdown
    rw [hprep]
    rfl

theorem c6_unparseable_date_drops_all_witness :
    prepare_transaction_dataframe pd_to_datetime [goodTxn, badDateTxn] = [] ∧
    calculate_monthly_breakdown
      (prepare_transaction_dataframe pd_to_datetime [goodTxn, badDateTxn]) = [] ∧
    generate_transaction_breakdown pd_to_datetime [goodTxn, badDateTxn] = ([], none) :=
  c6_unparseable_date_drops_all pd_to_datetime [goodTxn, badDateTxn] badDateTxn
    (by decide) (by decide)

/-! ## Chunking lemmas -/

theorem chunksGo_flatten (k : ℕ) :
    ∀ (fuel : ℕ) (l : List α), l.length ≤ fuel → (chunksGo k fuel l).flatten = l := by
  intro fuel
  induction fuel with
  | zero =>
      intro l hl
      have : l = [] := List.length_eq_zero.mp (Nat.le_zero.mp hl)
      subst this
      rfl
  | succ n ih =>
      intro l hl
      cases l with
      | nil => rfl
      | cons a as =>
          have hdrop : (as.drop (k - 1)).length ≤ n := by
            rw [List.length_drop]
            have : as.length ≤ n := by simpa using Nat.succ_le_succ_iff.mp hl
            omega
          calc (chunksGo k (n + 1) (a :: as)).flatten
              = (a :: as.take (k - 1)) ++ (chunksGo k n (as.drop (k - 1))).flatten := by
                simp [chunksGo]
            _ = (a :: as.take (k - 1)) ++ as.drop (k - 1) := by rw [ih _ hdrop]
            _ = a :: as := by rw [List.cons_append, List.take_append_drop]

theorem chunksGo_length (k : ℕ) (hk : 0 < k) :
    ∀ (fuel : ℕ) (l : List α), l.length ≤ fuel →
      (chunksGo k fuel l).length = (l.length + k - 1) / k := by
  intro fuel
  induction fuel with
  | zero =>
      intro l hl
      have : l = [] := List.length_eq_zero.mp (Nat.le_zero.mp hl)
      subst this
      show 0 = (0 + k - 1) / k
      rw [Nat.div_eq_of_lt (by omega)]
  | succ n ih =>
      intro l hl
      cases l with
      | nil =>
          show 0 = (0 + k - 1) / k
          rw [Nat.div_eq_of_lt (by omega)]
      | cons a as =>
          have has : as.length ≤ n := by simpa using Nat.succ_le_succ_iff.mp hl
          have hdrop : (as.drop (k - 1)).length ≤ n := by
            rw [List.length_drop]; omega
          have hrec := ih (as.drop (k - 1)) hdrop
          have hstep : chunksGo k (n + 1) (a :: as)
              = (a :: as.take (k - 1)) :: chunksGo k n (as.drop (k - 1)) := by
            simp [chunksGo]
          rw [hstep, List.length_cons, hrec, List.length_drop, List.length_cons]
          by_cases hcase : as.length ≤ k - 1
          · have h1 : as.length - (k - 1) + k - 1 = k - 1 := by omega
            rw [h1, Nat.div_eq_of_lt (by omega)]
            have h2 : as.length + 1 + k - 1 = as.length + k := by omega
            rw [h2]
            exact (Nat.div_eq_of_lt_le (by omega) (by omega)).symm
          · have h1 : as.length - (k - 1) + k - 1 = as.length := by omega
            rw [h1]
            have h2 : as.length + 1 + k - 1 = as.length + k := by omega
            rw [h2, Nat.add_div_right _ hk]

theorem chunksGo_mem (k : ℕ) (hk : 0 < k) :
    ∀ (fuel : ℕ) (l : List α), l.length ≤ fuel →
      ∀ c ∈ chunksGo k fuel l, c ≠ [] ∧ c.length ≤ k := by
  intro fuel
  induction fuel with
  | zero =>
      intro l hl c hc
      have : l = [] := List.length_eq_zero.mp (Nat.le_zero.mp hl)
      subst this
      cases hc
  | succ n ih =>
      intro l hl c hc
      cases l with
      | nil => cases hc
      | cons a as =>
          have has : as.length ≤ n := by simpa using Nat.succ_le_succ_iff.mp hl
          have hdrop : (as.drop (k - 1)).length ≤ n := by
            rw [List.length_drop]; omega
          have hstep : chunksGo k (n + 1) (a :: as)
              = (a :: as.take (k - 1)) :: chunksGo k n (as.drop (k - 1)) := by
            simp [chunksGo]
          rw [hstep] at hc
          cases hc with
          | head =>
              refine ⟨by simp, ?_⟩
              have : (as.take (k - 1)).length ≤ k - 1 := by
                rw [List.length_take]; omega
              simp only [List.length_cons]
              omega
          | tail _ h => exact ih (as.drop (k - 1)) hdrop c h

theorem enumFrom_fst_ge (s : ℕ) (l : List α) : ∀ p ∈ enumFrom s l, s ≤ p.1 := by
  induction l generalizing s with
  | nil => intro p hp; cases hp
  | cons a as ih =>
      intro p hp
      cases hp with
      | head => exact Nat.le_refl s
      | tail _ h => exact Nat.le_of_succ_le (ih (s + 1) p h)

theorem enumFrom_fst_nodup (s : ℕ) (l : List α) :
    ((enumFrom s l).map Prod.fst).Nodup := by
  induction l generalizing s with
  | nil => exact List.nodup_nil
  | cons a as ih =>
      refine List.Nodup.cons ?_ (ih (s + 1))
      intro hmem
      rcases List.mem_map.mp hmem with ⟨p, hp, hps⟩
      have := enumFrom_fst_ge (s + 1) as p hp
      omega

theorem mem_enumFrom (l : List α) (d : α) :
    ∀ (s i : ℕ), i < l.length → (s + i, l.getD i d) ∈ enumFrom s l := by
  induction l with
  | nil => intro s i hi; cases hi
  | cons a as ih =>
      intro s i hi
      cases i with
      | zero => simp [enumFrom]
      | succ j =>
          have : (s + (j + 1), (a :: as).getD (j + 1) d)
              = ((s + 1) + j, as.getD j d) := by
            simp [List.getD_cons_succ]
            omega
          rw [this]
          exact List.mem_cons_of_mem _ (ih (s + 1) j (by simpa using Nat.succ_le_succ_iff.mp hi))

theorem slotLookup_of_mem (i : ℕ) (r : β) :
    ∀ cs : List (ℕ × β), (cs.map Prod.fst).Nodup → (i, r) ∈ cs →
      slotLookup i cs = some r := by
  intro cs
  induction cs with
  | nil => intro _ hm; cases hm
  | cons p rest ih =>
      intro hnd hm
      obtain ⟨j, q⟩ := p
      rw [List.map_cons] at hnd
      cases hm with
      | head => simp [slotLookup]
      | tail _ h =>
          have hji : j ≠ i := by
            intro hji
            subst hji
            have : j ∈ rest.map Prod.fst :=
              List.mem_map.mpr ⟨(j, r), h, rfl⟩
            exact (List.nodup_cons.mp hnd).1 this
          simp only [slotLookup, hji, if_false]
          exact ih (List.nodup_cons.mp hnd).2 h

theorem map_range_getD (l : List β) (d : β) :
    (List.range l.length).map (fun i => l.getD i d) = l := by
  induction l with
  | nil => rfl
  | cons a as ih =>
      rw [List.length_cons, List.range_succ_eq_map, List.map_cons, List.map_map]
      have hcomp : ((fun i => (a :: as).getD i d) ∘ Nat.succ) = fun i => as.getD i d := by
        funext i
        simp [List.getD_cons_succ]
      rw [hcomp, ih]
      simp [List.getD_cons_zero]

/-- `asyncio.gather` semantics: if the completion list is any permutation of
the indexed per-chunk results, the gathered-and-merged output is the in-order
concatenation of those results. -/
theorem gather_merge_of_perm (rs : List (List β)) (cs : List (ℕ × List β))
    (h : cs.Perm (enumFrom 0 rs)) : gather_merge rs.length cs = rs.flatten := by
  have hkeys : (cs.map Prod.fst).Nodup :=
    ((h.map Prod.fst).nodup_iff).mpr (enumFrom_fst_nodup 0 rs)
  unfold gather_merge
  have hlook : ∀ i ∈ List.range rs.length,
      (slotLookup i cs).getD [] = rs.getD i [] := by
    intro i hi
    have hi' : i < rs.length := List.mem_range.mp hi
    have hmem : (i, rs.getD i []) ∈ cs := by
      refine h.mem_iff.mpr ?_
      have := mem_enumFrom rs [] 0 i hi'
      simpa using this
    rw [slotLookup_of_mem i (rs.getD i []) cs hkeys hmem]
    rfl
  rw [List.map_congr_left hlook, map_range_getD]

/-! ## C3 — chunk partitioning and order-independent merge -/

/-- C3: for every ordered item sequence and chunk size `k > 0`, the chunking
loop produces `ceil(N/k)` consecutive, nonempty chunks of size at most `k`
whose concatenation is the input; and when every chunk's function succeeds,
the `asyncio.gather` merge equals the concatenation of the per-chunk results
in ascending chunk-index order for every completion order (any permutation of
the indexed results). -/
theorem c3_chunked_merge_order_independent {α β : Type} (k : ℕ) (hk : 0 < k)
    (items : List α) (fn : List α → List β) (completions : List (ℕ × List β))
    (hperm : completions.Perm (enumFrom 0 ((chunksOf k items).map fn))) :
    (chunksOf k items).length = (items.length + k - 1) / k ∧
    (chunksOf k items).flatten = items ∧
    (∀ c ∈ chunksOf k items, c ≠ [] ∧ c.length ≤ k) ∧
    gather_merge (chunksOf k items).length completions =
      ((chunksOf k items).map fn).flatten := by
  refine ⟨?_, ?_, ?_, ?_⟩
  · exact chunksGo_length k hk items.length items (Nat.le_refl _)
  · exact chunksGo_flatten k items.length items (Nat.le_refl _)
  · exact chunksGo_mem k hk items.length items (Nat.le_refl _)
  · have hlen : (chunksOf k items).length = ((chunksOf k items).map fn).length :=
      (List.length_map _ _).symm
    rw [hlen]
    exact gather_merge_of_perm ((chunksOf k items).map fn) completions hperm

theorem c3_chunked_merge_order_independent_witness :
    0 < 2 ∧
    (chunksOf 2 [10, 20, 30, 40, 50]).length = (5 + 2 - 1) / 2 ∧
    gather_merge (chunksOf 2 [10, 20, 30, 40, 50]).length
        [(2, [50]), (1, [30, 40]), (0, [10, 20])] =
      ((chunksOf 2 [10, 20, 30, 40, 50]).map (fun c => c)).flatten := by
  have h := c3_chunked_merge_order_independent 2 (by decide) [10, 20, 30, 40, 50]
    (fun c => c) [(2, [50]), (1, [30, 40]), (0, [10, 20])] (by decide)
  exact ⟨by decide, h.1, h.2.2.2⟩

/-! ## C4 — retry count before the fallback -/

theorem pcaLoop_all_fail (resps : ℕ → ExtractResp) :
    ∀ (fuel used : ℕ), (∀ j, j < fuel → extractValid (resps (used + j)) = none) →
      pcaLoop resps fuel used = ⟨[], used + fuel, true⟩ := by
  intro fuel
  induction fuel with
  | zero => intro used _; rfl
  | succ n ih =>
      intro used h
      have h0 : extractValid (resps used) = none := by
        have := h 0 (Nat.succ_pos n)
        simpa using this
      show (match extractValid (resps used) with
        | some ts => (⟨ts, used + 1, false⟩ : ChunkOutcome RawTxn)
        | none => pcaLoop resps n (used + 1)) = ⟨[], used + (n + 1), true⟩
      rw [h0]
      have := ih (used + 1) (fun j hj => by
        have := h (j + 1) (Nat.succ_lt_succ hj)
        simpa [Nat.add_assoc, Nat.add_comm 1 j] using this)
      rw [this]
      have harith : used + 1 + n = used + (n + 1) := by omega
      rw [harith]

theorem pccLoop_all_fail (resps : ℕ → CatResp) (chunk : List RawTxn) :
    ∀ (fuel used : ℕ), (∀ j, j < fuel → catValid (resps (used + j)) = none) →
      pccLoop resps chunk fuel used = ⟨chunk.map setDefaultCategory, used + fuel, true⟩ := by
  intro fuel
  induction fuel with
  | zero => intro used _; rfl
  | succ n ih =>
      intro used h
      have h0 : catValid (resps used) = none := by
        have := h 0 (Nat.succ_pos n)
        simpa using this
      show (match catValid (resps used) with
        | some ts => (⟨ts, used + 1, false⟩ : ChunkOutcome RawTxn)
        | none => pccLoop resps chunk n (used + 1)) = ⟨chunk.map setDefaultCategory, used + (n + 1), true⟩
      rw [h0]
      have := ih (used + 1) (fun j hj => by
        have := h (j + 1) (Nat.succ_lt_succ hj)
        simpa [Nat.add_assoc, Nat.add_comm 1 j] using this)
      rw [this]
      have harith : used + 1 + n = used + (n + 1) := by omega
      rw [harith]

/-- C4 amended: when every attempt at a chunk fails (API error, malformed
JSON, or a schema-violating item), the per-chunk oracle call is made exactly
`max_retries` times in total — i.e. `max_retries - 1` retries after the first
attempt, not `max_retries + 1` invocations — always with the same chunk
input, and then the fallback is applied: the empty list for extraction, the
original chunk with the default category for categorization. -/
theorem c4_retry_exhaustion_invocations (er : ℕ → ExtractResp) (cr : ℕ → CatResp)
    (chunk : List RawTxn) (max_retries : ℕ)
    (hE : ∀ j, j < max_retries → extractValid (er j) = none)
    (hC : ∀ j, j < max_retries → catValid (cr j) = none) :
    process_chunk_async er max_retries = ⟨[], max_retries, true⟩ ∧
    process_categorization_chunk_async cr chunk max_retries =
      ⟨chunk.map setDefaultCategory, max_retries, true⟩ := by
  constructor
  · have := pcaLoop_all_fail er max_retries 0 (fun j hj => by simpa using hE j hj)
    simpa [process_chunk_async] using this
  · have := pccLoop_all_fail cr chunk max_retries 0 (fun j hj => by simpa using hC j hj)
    simpa [process_categorization_chunk_async] using this

theorem c4_retry_exhaustion_invocations_witness :
    process_chunk_async (fun _ => ExtractResp.apiError) 3 = ⟨[], 3, true⟩ ∧
    process_categorization_chunk_async (fun _ => CatResp.apiError) [sampleTxn] 3 =
      ⟨[sampleTxn].map setDefaultCategory, 3, true⟩ :=
  c4_retry_exhaustion_invocations (fun _ => ExtractResp.apiError)
    (fun _ => CatResp.apiError) [sampleTxn] 3
    (fun _ _ => rfl) (fun _ _ => rfl)

/-- C4 counterexample: with `max_retries = 3` and an oracle failing every
attempt, the fallback is applied after exactly 3 invocations, not the
`maxRetries + 1 = 4` the claim states. -/
theorem c4_retry_count_counterexample :
    (process_categorization_chunk_async (fun _ => CatResp.apiError) [sampleTxn] 3).fellBack
      = true ∧
    (process_categorization_chunk_async (fun _ => CatResp.apiError) [sampleTxn] 3).attempts
      = 3 ∧
    (process_categorization_chunk_async
        (fun _ => CatResp.apiError) [sampleTxn] 3).attempts ≠ 3 + 1 :=
  of_decide_eq_true (by with_unfolding_all rfl)

/-! ## C5 — behavior under partially failing chunks -/

theorem pccLoop_fellBack_result (resps : ℕ → CatResp) (chunk : List RawTxn) :
    ∀ (fuel used : ℕ), (pccLoop resps chunk fuel used).fellBack = true →
      (pccLoop resps chunk fuel used).result = chunk.map setDefaultCategory := by
  intro fuel
  induction fuel with
  | zero => intro used _; rfl
  | succ n ih =>
      intro used hfb
      cases hcat : catValid (resps used) with
      | some ts =>
          exfalso
          have : (pccLoop resps chunk (n + 1) used).fellBack = false := by
            show (match catValid (resps used) with
              | some ts => (⟨ts, used + 1, false⟩ : ChunkOutcome RawTxn)
              | none => pccLoop resps chunk n (used + 1)).fellBack = false
            rw [hcat]
          rw [this] at hfb
          cases hfb
      | none =>
          have hstep : pccLoop resps chunk (n + 1) used = pccLoop resps chunk n (used + 1) := by
            show (match catValid (resps used) with
              | some ts => (⟨ts, used + 1, false⟩ : ChunkOutcome RawTxn)
              | none => pccLoop resps chunk n (used + 1)) = pccLoop resps chunk n (used + 1)
            rw [hcat]
          rw [hstep] at hfb ⊢
          exact ih (used + 1) hfb

theorem pcaLoop_fellBack_result (resps : ℕ → ExtractResp) :
    ∀ (fuel used : ℕ), (pcaLoop resps fuel used).fellBack = true →
      (pcaLoop resps fuel used).result = [] := by
  intro fuel
  induction fuel with
  | zero => intro used _; rfl
  | succ n ih =>
      intro used hfb
      cases hext : extractValid (resps used) with
      | some ts =>
          exfalso
          have : (pcaLoop resps (n + 1) used).fellBack = false := by
            show (match extractValid (resps used) with
              | some ts => (⟨ts, used + 1, false⟩ : ChunkOutcome RawTxn)
              | none => pcaLoop resps n (used + 1)).fellBack = false
            rw [hext]
          rw [this] at hfb
          cases hfb
      | none =>
          have hstep : pcaLoop resps (n + 1) used = pcaLoop resps n (used + 1) := by
            show (match extractValid (resps used) with
              | some ts => (⟨ts, used + 1, false⟩ : ChunkOutcome RawTxn)
              | none => pcaLoop resps n (used + 1)) = pcaLoop resps n (used + 1)
            rw [hext]
          rw [hstep] at hfb ⊢
          exact ih (used + 1) hfb

/-- C5 amended: both chunked runs — extraction over table-key chunks and
categorization over transaction chunks — return the merged per-chunk results
whenever that merge is nonempty, and raise exactly when it is empty.  For
every partial failure the merge order and contents are preserved: an
exhausted extraction chunk's fallback contributes `[]` (the chunk is
dropped), while an exhausted categorization chunk re-emits its own
(nonempty) transactions exactly once with the default category, so a partial
failure alone never triggers the raise.  The raise happens for an empty
initial input or when every chunk yields an empty list — which a chunk that
"succeeded" with an empty oracle output also does, so, unlike what the claim
states, a run can raise despite successful chunks. -/
theorem c5_chunked_raise_condition (eresps : ℕ → ℕ → ExtractResp)
    (table_keys : List String) (cresps : ℕ → ℕ → CatResp) (ts : List RawTxn) :
    (((List.range (chunksOf 2 table_keys).length).map (fun i =>
        (process_chunk_async (eresps i) 3).result)).flatten ≠ [] →
      extract_transactions eresps table_keys =
        .ok (((List.range (chunksOf 2 table_keys).length).map (fun i =>
          (process_chunk_async (eresps i) 3).result)).flatten)) ∧
    (((List.range (chunksOf 2 table_keys).length).map (fun i =>
        (process_chunk_async (eresps i) 3).result)).flatten = [] →
      extract_transactions eresps table_keys = .error
        "Failed to extract transactions: No transactions were successfully extracted") ∧
    (∀ i, (process_chunk_async (eresps i) 3).fellBack = true →
      (process_chunk_async (eresps i) 3).result = []) ∧
    (((List.range (chunksOf 40 ts).length).map (fun i =>
        (process_categorization_chunk_async (cresps i)
          ((chunksOf 40 ts).getD i []) 3).result)).flatten ≠ [] →
      categorize_transactions cresps ts =
        .ok (((List.range (chunksOf 40 ts).length).map (fun i =>
          (process_categorization_chunk_async (cresps i)
            ((chunksOf 40 ts).getD i []) 3).result)).flatten)) ∧
    (((List.range (chunksOf 40 ts).length).map (fun i =>
        (process_categorization_chunk_async (cresps i)
          ((chunksOf 40 ts).getD i []) 3).result)).flatten = [] →
      categorize_transactions cresps ts = .error
        "Failed to categorize transactions: No transactions were successfully categorized") ∧
    (∀ i, (process_categorization_chunk_async (cresps i)
          ((chunksOf 40 ts).getD i []) 3).fellBack = true →
      (process_categorization_chunk_async (cresps i)
          ((chunksOf 40 ts).getD i []) 3).result =
        ((chunksOf 40 ts).getD i []).map setDefaultCategory ∧
      ((chunksOf 40 ts).getD i [] ≠ [] →
        (process_categorization_chunk_async (cresps i)
          ((chunksOf 40 ts).getD i []) 3).result ≠ [])) := by
  refine ⟨?_, ?_, ?_, ?_, ?_, ?_⟩
  · intro h
    simp only [extract_transactions]
    rw [if_neg (fun hc => h (List.isEmpty_iff.mp hc))]
  · intro h
    simp only [extract_transactions]
    rw [if_pos (List.isEmpty_iff.mpr h)]
  · intro i hfb
    exact pcaLoop_fellBack_result (eresps i) 3 0 hfb
  · intro h
    simp only [categorize_transactions]
    rw [if_neg (fun hc => h (List.isEmpty_iff.mp hc))]
  · intro h
    simp only [categorize_transactions]
    rw [if_pos (List.isEmpty_iff.mpr h)]
  · intro i hfb
    have hres : (process_categorization_chunk_async (cresps i)
        ((chunksOf 40 ts).getD i []) 3).result =
          ((chunksOf 40 ts).getD i []).map setDefaultCategory :=
      pccLoop_fellBack_result (cresps i) ((chunksOf 40 ts).getD i []) 3 0 hfb
    refine ⟨hres, fun hne hrnil => ?_⟩
    rw [hres] at hrnil
    exact hne (List.map_eq_nil_iff.mp hrnil)

theorem c5_chunked_raise_condition_witness :
    extract_transactions (fun _ _ => ExtractResp.apiError)
        ["Table 1", "Table 2", "Table 3"] =
      .error "Failed to extract transactions: No transactions were successfully extracted" ∧
    (process_chunk_async (fun _ => ExtractResp.apiError) 3).fellBack = true ∧
    (process_chunk_async (fun _ => ExtractResp.apiError) 3).result = [] ∧
    categorize_transactions (fun _ _ => CatResp.apiError) [sampleTxn] =
      .ok (((List.range (chunksOf 40 [sampleTxn]).length).map (fun i =>
        (process_categorization_chunk_async ((fun (_ _ : ℕ) => CatResp.apiError) i)
          ((chunksOf 40 [sampleTxn]).getD i []) 3).result)).flatten) ∧
    (process_categorization_chunk_async (fun _ => CatResp.apiError)
        ((chunksOf 40 [sampleTxn]).getD 0 []) 3).fellBack = true ∧
    (process_categorization_chunk_async (fun _ => CatResp.apiError)
        ((chunksOf 40 [sampleTxn]).getD 0 []) 3).result ≠ [] := by
  have h := c5_chunked_raise_condition (fun _ _ => ExtractResp.apiError)
    ["Table 1", "Table 2", "Table 3"] (fun _ _ => CatResp.apiError) [sampleTxn]
  have hfbE : (process_chunk_async (fun _ => ExtractResp.apiError) 3).fellBack = true :=
    of_decide_eq_true (by with_unfolding_all rfl)
  have hfbC : (process_categorization_chunk_async (fun _ => CatResp.apiError)
      ((chunksOf 40 [sampleTxn]).getD 0 []) 3).fellBack = true :=
    of_decide_eq_true (by with_unfolding_all rfl)
  exact ⟨h.2.1 (of_decide_eq_true (by with_unfolding_all rfl)),
    hfbE,
    h.2.2.1 0 hfbE,
    h.2.2.2.1 (of_decide_eq_true (by with_unfolding_all rfl)),
    hfbC,
    (h.2.2.2.2.2 0 hfbC).2 (of_decide_eq_true (by with_unfolding_all rfl))⟩

/-- C5 counterexample: in both chunked runs, a chunk that succeeds on its
first attempt (no fallback, one API call) but returns an empty transaction
list leaves the merged result empty, and the run then raises even though at
least one chunk succeeded and the initial input was structurally valid
(nonempty) — against the claim that it raises only with zero successful
chunks and zero fallback-produced items. -/
theorem c5_success_with_empty_output_counterexample :
    (process_chunk_async (fun _ => ExtractResp.txList []) 3).fellBack = false ∧
    (process_chunk_async (fun _ => ExtractResp.txList []) 3).attempts = 1 ∧
    (["Table 1"] : List String) ≠ [] ∧
    extract_transactions (fun _ _ => ExtractResp.txList []) ["Table 1"] =
      .error "Failed to extract transactions: No transactions were successfully extracted" ∧
    (process_categorization_chunk_async (fun _ => CatResp.txns [])
        ((chunksOf 40 [sampleTxn]).getD 0 []) 3).fellBack = false ∧
    (process_categorization_chunk_async (fun _ => CatResp.txns [])
        ((chunksOf 40 [sampleTxn]).getD 0 []) 3).attempts = 1 ∧
    ([sampleTxn] : List RawTxn) ≠ [] ∧
    categorize_transactions (fun _ _ => CatResp.txns []) [sampleTxn] =
      .error "Failed to categorize transactions: No transactions were successfully categorized" :=
  ⟨of_decide_eq_true (by with_unfolding_all rfl),
   of_decide_eq_true (by with_unfolding_all rfl),
   of_decide_eq_true (by with_unfolding_all rfl),
   by with_unfolding_all rfl,
   of_decide_eq_true (by with_unfolding_all rfl),
   of_decide_eq_true (by with_unfolding_all rfl),
   of_decide_eq_true (by with_unfolding_all rfl),
   by with_unfolding_all rfl⟩

/-! ## Summation lemmas for the breakdown/total consistency bound -/

theorem mapSum_add (l : List α) (f g : α → ℚ) :
    (l.map (fun x => f x + g x)).sum = (l.map f).sum + (l.map g).sum := by
  induction l with
  | nil => simp
  | cons a as ih => simp [ih]; ring

theorem mapSum_nonneg (l : List α) (f : α → ℚ) (h : ∀ x ∈ l, 0 ≤ f x) :
    0 ≤ (l.map f).sum := by
  induction l with
  | nil => simp
  | cons a as ih =>
      simp only [List.map_cons, List.sum_cons]
      have ha := h a (List.mem_cons_self a as)
      have has := ih (fun x hx => h x (List.mem_cons_of_mem a hx))
      linarith

theorem mapSum_ite_single (sc₀ : String) (c : ℚ) :
    ∀ ks : List String, ks.Nodup → sc₀ ∈ ks →
      (ks.map (fun sc => if sc₀ = sc then c else 0)).sum = c := by
  intro ks
  induction ks with
  | nil => intro _ hmem; cases hmem
  | cons a as ih =>
      intro hnd hmem
      rw [List.map_cons, List.sum_cons]
      by_cases ha : sc₀ = a
      · rw [if_pos ha]
        have hrest : ((as.map (fun sc => if sc₀ = sc then c else 0)).sum = 0) := by
          apply List.sum_eq_zero
          intro x hx
          rcases List.mem_map.mp hx with ⟨sc, hsc, rfl⟩
          have : sc₀ ≠ sc := by
            intro hcontr
            subst hcontr
            subst ha
            exact (List.nodup_cons.mp hnd).1 hsc
          rw [if_neg this]
        rw [hrest, add_zero]
      · rw [if_neg ha, zero_add]
        have hmem' : sc₀ ∈ as := by
          cases hmem with
          | head => exact absurd rfl ha
          | tail _ h => exact h
        exact ih (List.nodup_cons.mp hnd).2 hmem'

/-- Decomposing a sum over rows into the sums of its subcategory fibers
(the groups pandas' `groupby` forms), for any duplicate-free key list that
covers every row's subcategory. -/
theorem sum_fibers (R : List Row) (f : Row → ℚ) (ks : List String)
    (hnd : ks.Nodup) (hcov : ∀ r ∈ R, ∃ sc ∈ ks, r.sub_category = some sc) :
    (R.map f).sum =
      (ks.map (fun sc =>
        ((R.filter (fun r => r.sub_category == some sc)).map f).sum)).sum := by
  induction R with
  | nil =>
      simp
  | cons r R' ih =>
      rcases hcov r (List.mem_cons_self r R') with ⟨sc₀, hsc₀, hkey⟩
      have hterm : ∀ sc ∈ ks,
          (((r :: R').filter (fun r' => r'.sub_category == some sc)).map f).sum
            = (if sc₀ = sc then f r else 0)
              + ((R'.filter (fun r' => r'.sub_category == some sc)).map f).sum := by
        intro sc _
        by_cases hsc : sc₀ = sc
        · subst hsc
          rw [List.filter_cons]
          have : (r.sub_category == some sc₀) = true := by
            rw [hkey]; exact beq_self_eq_true _
          simp [this]
        · rw [List.filter_cons]
          have : (r.sub_category == some sc) = false := by
            rw [hkey]
            apply beq_eq_false_iff_ne.mpr
            intro hcontr
            exact hsc (Option.some.inj hcontr)
          simp [this, hsc]
      calc ((r :: R').map f).sum
          = f r + (R'.map f).sum := by simp
        _ = (ks.map (fun sc => if sc₀ = sc then f r else 0)).sum
            + (ks.map (fun sc =>
                ((R'.filter (fun r' => r'.sub_category == some sc)).map f).sum)).sum := by
            rw [mapSum_ite_single sc₀ (f r) ks hnd hsc₀]
            rw [ih (fun r' hr' => hcov r' (List.mem_cons_of_mem r hr'))]
        _ = (ks.map (fun sc =>
              (if sc₀ = sc then f r else 0)
                + ((R'.filter (fun r' => r'.sub_category == some sc)).map f).sum)).sum := by
            rw [mapSum_add]
        _ = (ks.map (fun sc =>
              (((r :: R').filter (fun r' => r'.sub_category == some sc)).map f).sum)).sum := by
            rw [List.map_congr_left (fun sc hsc => (hterm sc hsc).symm)]

/-- Rounding to cents moves a rational by at most half a cent. -/
theorem round2_close (x : ℚ) : |round2 x - x| ≤ 1 / 200 := by
  have h : |(round (100 * x) : ℚ) - 100 * x| ≤ 1 / 2 := by
    rw [abs_sub_comm]
    exact abs_sub_round (100 * x)
  have hrw : round2 x - x = ((round (100 * x) : ℚ) - 100 * x) / 100 := by
    unfold round2
    ring
  rw [hrw, abs_div, abs_of_pos (show (0:ℚ) < 100 by norm_num)]
  calc |(round (100 * x) : ℚ) - 100 * x| / 100
      ≤ (1 / 2) / 100 := by
        apply (div_le_div_iff_of_pos_right (show (0:ℚ) < 100 by norm_num)).mpr h
    _ = 1 / 200 := by norm_num

theorem sum_round_diff_bound (g : String → ℚ) :
    ∀ ks : List String, (∀ sc ∈ ks, 0 ≤ g sc) →
      |(ks.map (fun sc => if 0 < g sc then round2 (g sc) else 0)).sum - (ks.map g).sum|
        ≤ (ks.countP (fun sc => decide (0 < g sc)) : ℚ) / 200 := by
  intro ks
  induction ks with
  | nil => simp
  | cons a as ih =>
      intro hg
      have hga := hg a (List.mem_cons_self a as)
      have hrest := ih (fun sc hsc => hg sc (List.mem_cons_of_mem a hsc))
      rw [List.map_cons, List.map_cons, List.sum_cons, List.sum_cons, List.countP_cons]
      by_cases hpos : 0 < g a
      · have hhead : |round2 (g a) - g a| ≤ 1 / 200 := round2_close (g a)
        rw [if_pos hpos]
        have hp : (decide (0 < g a)) = true := decide_eq_true hpos
        rw [hp]
        push_cast
        have htri : |round2 (g a) + (as.map (fun sc => if 0 < g sc then round2 (g sc) else 0)).sum
            - (g a + (as.map g).sum)|
            ≤ |round2 (g a) - g a|
              + |(as.map (fun sc => if 0 < g sc then round2 (g sc) else 0)).sum - (as.map g).sum| := by
          have := abs_add (round2 (g a) - g a)
            ((as.map (fun sc => if 0 < g sc then round2 (g sc) else 0)).sum - (as.map g).sum)
          calc |round2 (g a) + (as.map (fun sc => if 0 < g sc then round2 (g sc) else 0)).sum
              - (g a + (as.map g).sum)|
              = |(round2 (g a) - g a)
                + ((as.map (fun sc => if 0 < g sc then round2 (g sc) else 0)).sum - (as.map g).sum)| := by
                ring_nf
            _ ≤ _ := this
        calc |round2 (g a) + (as.map (fun sc => if 0 < g sc then round2 (g sc) else 0)).sum
            - (g a + (as.map g).sum)|
            ≤ |round2 (g a) - g a|
              + |(as.map (fun sc => if 0 < g sc then round2 (g sc) else 0)).sum - (as.map g).sum| := htri
          _ ≤ 1 / 200 + (as.countP (fun sc => decide (0 < g sc)) : ℚ) / 200 := by
              exact add_le_add hhead hrest
          _ = ((as.countP (fun sc => decide (0 < g sc)) : ℚ) + 1) / 200 := by ring
      · have hzero : g a = 0 := le_antisymm (not_lt.mp hpos) hga
        rw [if_neg hpos]
        have hp : (decide (0 < g a)) = false := decide_eq_false hpos
        rw [hp]
        simp only [if_false, Bool.false_eq_true, Nat.add_zero]
        have : (0 : ℚ) + (as.map (fun sc => if 0 < g sc then round2 (g sc) else 0)).sum
            - (g a + (as.map g).sum)
            = (as.map (fun sc => if 0 < g sc then round2 (g sc) else 0)).sum - (as.map g).sum := by
          rw [hzero]; ring
        rw [this]
        exact hrest

theorem breakdownTotal_filterMap (g : String → ℚ) :
    ∀ ks : List String,
      breakdownTotal (ks.filterMap (fun sc =>
        if 0 < g sc then some (sc, round2 (g sc)) else none))
        = (ks.map (fun sc => if 0 < g sc then round2 (g sc) else 0)).sum := by
  intro ks
  induction ks with
  | nil => rfl
  | cons a as ih =>
      by_cases hpos : 0 < g a
      · simp only [List.filterMap_cons, List.map_cons, List.sum_cons, if_pos hpos,
          breakdownTotal] at ih ⊢
        rw [ih]
      · simp only [List.filterMap_cons, List.map_cons, List.sum_cons, if_neg hpos,
          breakdownTotal] at ih ⊢
        rw [ih, zero_add]

theorem breakdown_length_countP (g : String → ℚ) :
    ∀ ks : List String,
      (ks.filterMap (fun sc =>
        if 0 < g sc then some (sc, round2 (g sc)) else none)).length
        = ks.countP (fun sc => decide (0 < g sc)) := by
  intro ks
  induction ks with
  | nil => rfl
  | cons a as ih =>
      by_cases hpos : 0 < g a
      · simp [List.filterMap_cons, List.countP_cons, hpos, ih]
      · simp [List.filterMap_cons, List.countP_cons, hpos, ih]

theorem monthSubcats_nodup (rows : List Row) (m : ℕ × ℕ) (ct : String) :
    (monthSubcats rows m ct).Nodup := by
  unfold monthSubcats
  exact ((sortBy_perm strLeB _).nodup_iff).mpr (List.nodup_dedup _)

theorem monthSubcats_covers (rows : List Row) (m : ℕ × ℕ) (ct : String) :
    ∀ r ∈ rowsFor rows m ct, ∃ sc ∈ monthSubcats rows m ct, r.sub_category = some sc := by
  intro r hr
  have hsome : r.sub_category.isSome := by
    have hp := (List.mem_filter.mp hr).2
    have := (Bool.and_eq_true _ _).mp hp
    exact this.2
  rcases Option.isSome_iff_exists.mp hsome with ⟨sc, hsc⟩
  refine ⟨sc, ?_, hsc⟩
  unfold monthSubcats
  apply (sortBy_perm strLeB _).mem_iff.mpr
  apply List.mem_dedup.mpr
  exact List.mem_filterMap.mpr ⟨r, hr, hsc⟩

/-- The core estimate: one month's breakdown total differs from the rounded
monthly total by at most half a cent per positive group plus half a cent for
the total's own rounding. -/
theorem breakdown_close (rows : List Row) (m : ℕ × ℕ) (ct : String) (f : Row → ℚ)
    (hnn : ∀ r ∈ rowsFor rows m ct, 0 ≤ f r) :
    |breakdownTotal (breakdownFor rows m ct f)
        - round2 (((rowsFor rows m ct).map f).sum)|
      ≤ (((breakdownFor rows m ct f).length : ℚ) + 1) / 200 := by
  have hnd := monthSubcats_nodup rows m ct
  have hcov := monthSubcats_covers rows m ct
  have hfib := sum_fibers (rowsFor rows m ct) f (monthSubcats rows m ct) hnd hcov
  have hgnn : ∀ sc ∈ monthSubcats rows m ct,
      0 ≤ groupAmount rows m ct sc f := by
    intro sc _
    apply mapSum_nonneg
    intro r hr
    exact hnn r (List.mem_of_mem_filter hr)
  have hbound := sum_round_diff_bound (fun sc => groupAmount rows m ct sc f)
    (monthSubcats rows m ct) hgnn
  have htot : breakdownTotal (breakdownFor rows m ct f)
      = ((monthSubcats rows m ct).map (fun sc =>
          if 0 < groupAmount rows m ct sc f
          then round2 (groupAmount rows m ct sc f) else 0)).sum := by
    unfold breakdownFor
    exact breakdownTotal_filterMap (fun sc => groupAmount rows m ct sc f) _
  have hlen : ((breakdownFor rows m ct f).length : ℚ)
      = ((monthSubcats rows m ct).countP
          (fun sc => decide (0 < groupAmount rows m ct sc f)) : ℚ) := by
    unfold breakdownFor
    rw [breakdown_length_countP (fun sc => groupAmount rows m ct sc f) _]
  have hS : ((rowsFor rows m ct).map f).sum
      = ((monthSubcats rows m ct).map (fun sc => groupAmount rows m ct sc f)).sum := by
    rw [hfib]
    rfl
  set S := ((monthSubcats rows m ct).map (fun sc => groupAmount rows m ct sc f)).sum with hSdef
  set T := ((monthSubcats rows m ct).map (fun sc =>
      if 0 < groupAmount rows m ct sc f
      then round2 (groupAmount rows m ct sc f) else 0)).sum with hTdef
  have hround := round2_close S
  rw [htot, hS, hlen]
  calc |T - round2 S|
      = |(T - S) + (S - round2 S)| := by ring_nf
    _ ≤ |T - S| + |S - round2 S| := abs_add _ _
    _ ≤ ((monthSubcats rows m ct).countP
          (fun sc => decide (0 < groupAmount rows m ct sc f)) : ℚ) / 200 + 1 / 200 := by
        apply add_le_add hbound
        rw [abs_sub_comm]
        exact hround
    _ = (((monthSubcats rows m ct).countP
          (fun sc => decide (0 < groupAmount rows m ct sc f)) : ℚ) + 1) / 200 := by ring

/-! ## C1 — breakdown totals versus monthly totals -/

/-- C1 amended: for transactions with nonnegative debit and credit amounts
(the data model's invariant), every MonthlySummary satisfies
`|sum(income_breakdown) - income| ≤ 0.005 * (k + 1)` where `k` is the number
of breakdown entries, and likewise for expenses: the income/expense total and
its breakdown agree up to half a cent of rounding per breakdown entry plus
half a cent for the total itself.  The flat 0.01 tolerance of the claim does
not hold in general, since each entry is rounded separately. -/
theorem c1_breakdown_total_consistency (rows : List Row)
    (hnn : ∀ r ∈ rows, 0 ≤ r.credit ∧ 0 ≤ r.debit) :
    ∀ e ∈ calculate_monthly_breakdown rows,
      |breakdownTotal e.income_breakdown - e.income|
        ≤ ((e.income_breakdown.length : ℚ) + 1) / 200 ∧
      |breakdownTotal e.expense_breakdown - e.expense|
        ≤ ((e.expense_breakdown.length : ℚ) + 1) / 200 := by
  intro e he
  rcases List.mem_map.mp he with ⟨m, _, rfl⟩
  constructor
  · exact breakdown_close rows m "income" Row.credit
      (fun r hr => (hnn r (List.mem_of_mem_filter hr)).1)
  · exact breakdown_close rows m "expense" Row.debit
      (fun r hr => (hnn r (List.mem_of_mem_filter hr)).2)

theorem c1_breakdown_total_consistency_witness :
    |breakdownTotal ((calculate_monthly_breakdown smallCreditRows).getD 0 default).income_breakdown
        - ((calculate_monthly_breakdown smallCreditRows).getD 0 default).income|
      ≤ ((((calculate_monthly_breakdown smallCreditRows).getD 0 default).income_breakdown.length : ℚ)
          + 1) / 200 :=
  (c1_breakdown_total_consistency smallCreditRows
    (of_decide_eq_true (by with_unfolding_all rfl))
    ((calculate_monthly_breakdown smallCreditRows).getD 0 default)
    (of_decide_eq_true (by with_unfolding_all rfl))).1

/-- C1 counterexample: five income subcategories of one month, each with
credit `0.004`. Every per-entry rounded amount is `0.00`, so the breakdown
sums to `0`, while the month's income rounds to `0.02`: the discrepancy is
`0.02 > 0.01`, violating the claim's fixed rounding tolerance. -/
theorem c1_tolerance_counterexample :
    ∃ e ∈ calculate_monthly_breakdown smallCreditRows,
      ¬(|breakdownTotal e.income_breakdown - e.income| ≤ 1 / 100 ∧
        |breakdownTotal e.expense_breakdown - e.expense| ≤ 1 / 100) :=
  of_decide_eq_true (by with_unfolding_all rfl)

/-! ## C9 — rows that are neither income nor expense -/

theorem rowsFor_append_other (rows : List Row) (r : Row) (m : ℕ × ℕ) (ct : String)
    (h : r.category_type ≠ ct) :
    rowsFor (rows ++ [r]) m ct = rowsFor rows m ct := by
  unfold rowsFor
  rw [List.filter_append]
  have hbeq : (r.category_type == ct) = false := beq_eq_false_iff_ne.mpr h
  simp [List.filter_cons, hbeq]

theorem monthEntry_append_other (rows : List Row) (r : Row)
    (h1 : r.category_type ≠ "income") (h2 : r.category_type ≠ "expense") (m : ℕ × ℕ) :
    monthEntry (rows ++ [r]) m = monthEntry rows m := by
  have hI := rowsFor_append_other rows r m "income" h1
  have hE := rowsFor_append_other rows r m "expense" h2
  unfold monthEntry breakdownFor monthSubcats groupAmount
  simp only [hI, hE]

/-- C9: a transaction whose category type is neither `income` nor `expense`
(e.g. `transfer`) contributes to none of the fields of any month's summary:
appending such a row leaves every `monthEntry` — income, expense, savings and
both breakdowns — unchanged, every summary in the breakdown of the extended
frame is a summary of the original frame's rows, and a month's income/expense
are exactly the rounded sums of credits of its income-typed rows and of
debits of its expense-typed rows. -/
theorem c9_non_income_expense_rows_contribute_nothing (rows : List Row) (r : Row)
    (h1 : r.category_type ≠ "income") (h2 : r.category_type ≠ "expense") (m : ℕ × ℕ) :
    monthEntry (rows ++ [r]) m = monthEntry rows m ∧
    (monthEntry rows m).income = round2 (((rowsFor rows m "income").map Row.credit).sum) ∧
    (monthEntry rows m).expense = round2 (((rowsFor rows m "expense").map Row.debit).sum) ∧
    ∀ e ∈ calculate_monthly_breakdown (rows ++ [r]), ∃ m2, e = monthEntry rows m2 := by
  refine ⟨monthEntry_append_other rows r h1 h2 m, rfl, rfl, ?_⟩
  intro e he
  rcases List.mem_map.mp he with ⟨m2, _, rfl⟩
  exact ⟨m2, monthEntry_append_other rows r h1 h2 m2⟩

theorem c9_non_income_expense_rows_witness :
    monthEntry (januaryRows ++ [transferRow]) (2024, 1) = monthEntry januaryRows (2024, 1) ∧
    (monthEntry januaryRows (2024, 1)).income
      = round2 (((rowsFor januaryRows (2024, 1) "income").map Row.credit).sum) :=
  ⟨(c9_non_income_expense_rows_contribute_nothing januaryRows transferRow
      (by decide) (by decide) (2024, 1)).1,
   (c9_non_income_expense_rows_contribute_nothing januaryRows transferRow
      (by decide) (by decide) (2024, 1)).2.1⟩
